import Mathlib

/-!
Verification of the `doc_extractor` receipt-extraction pipeline
(`src/doc_extractor/preprocessing.py`, `extraction.py`, `pipeline.py`,
package `__init__.py`).

The embedding is shallow: Python strings are `List Char`, JSON values are an
inductive `Json` with rational numbers standing for Python numerics, the
third-party components (pdf2image, PIL, cv2, the Gemini client, `json.loads`)
are uninterpreted oracles or free term constructors, and the observable step
sequence of the pipeline is an explicit event trace.
-/

namespace DocExtractor

/-! ## Python string primitives

Models of the CPython `str` methods used by `extraction.py` and
`pipeline.py`: `strip()`, `replace(old, new)` (left-to-right, non-overlapping;
the repository only calls it with non-empty `old`), `startswith`,
`endswith` and `lower()` (the paths and markers involved are ASCII).
Strings are modelled as `List Char`.
-/

/-- Characters removed by Python `str.strip()` (ASCII whitespace). -/
def isPySpace (c : Char) : Bool :=
  c = ' ' || c = '\t' || c = '\n' || c = '\r' || c = '\x0b' || c = '\x0c'

/-- Drop the longest suffix of characters satisfying `p`. -/
def dropEndWhile (p : Char → Bool) : List Char → List Char
  | [] => []
  | c :: cs =>
    match dropEndWhile p cs with
    | [] => if p c then [] else [c]
    | d :: ds => c :: d :: ds

/-- Python `str.strip()`: remove leading and trailing whitespace. -/
def pyStrip (s : List Char) : List Char :=
  dropEndWhile isPySpace (s.dropWhile isPySpace)

/-- Python `str.startswith(pre)`. -/
def pyStartswith (s pre : List Char) : Bool :=
  pre.isPrefixOf s

/-- Python `str.replace(old, new)` for non-empty `old`: scan left to right,
replacing non-overlapping occurrences and resuming after each replacement. -/
def pyReplace (t r : List Char) : List Char → List Char
  | [] => []
  | c :: cs =>
    if t ≠ [] ∧ t.isPrefixOf (c :: cs) then
      r ++ pyReplace t r ((c :: cs).drop t.length)
    else
      c :: pyReplace t r cs
termination_by s => s.length
decreasing_by
  · rename_i h
    obtain ⟨ht, _⟩ := h
    have h1 : 0 < t.length := List.length_pos.mpr ht
    simp only [List.length_drop, List.length_cons]
    omega
  · simp

/-- Lowercase an ASCII character (Python `str.lower()` on ASCII input). -/
def toLowerAscii (c : Char) : Char :=
  if 'A' ≤ c ∧ c ≤ 'Z' then Char.ofNat (c.toNat + 32) else c

/-- Python `str.lower()` for ASCII strings. -/
def pyLower (s : List Char) : List Char :=
  s.map toLowerAscii

/-- Python `str.endswith(suf)`. -/
def pyEndswith (s suf : List Char) : Bool :=
  suf.isSuffixOf s

/-! ### Backtick-fence facts

`extraction.py` removes markdown fences with
`.replace('```json', '').replace('```', '')`.  The lemmas below show the
final `replace('```', '')` pass leaves no occurrence of three consecutive
backticks, which is what "all occurrences are removed" means observably.
-/

/-- The backtick character. -/
def tick : Char := '`'

/-- The three-backtick fence marker. -/
def tick3 : List Char := [tick, tick, tick]

/-- The opening fence marker with language tag. -/
def tickJson : List Char := [tick, tick, tick, 'j', 's', 'o', 'n']

/-- Does the list contain three consecutive backticks anywhere? -/
def containsTriple : List Char → Bool
  | a :: b :: c :: rest =>
    (a = tick && b = tick && c = tick) || containsTriple (b :: c :: rest)
  | _ => false

/-- Number of leading backticks. -/
def leadTicks : List Char → Nat
  | [] => 0
  | c :: cs => if c = tick then leadTicks cs + 1 else 0


/-! ## JSON values

Model of the Python values produced by `json.loads` and manipulated by
`extraction.py`.  Python numerics (int/float and, for arithmetic purposes,
bool) are modelled as rationals.
-/

/-- A JSON value.  Objects keep their key/value pairs in insertion order,
as CPython dicts do. -/
inductive Json where
  | null
  | bool (b : Bool)
  | num (q : ℚ)
  | str (s : String)
  | arr (elems : List Json)
  | obj (kvs : List (String × Json))

/-- Python truthiness of a JSON value (`bool(x)`): `None`, `False`, zero,
and empty strings/lists/dicts are falsy. -/
def pyTruthy : Json → Bool
  | .null => false
  | .bool b => b
  | .num q => decide (q ≠ 0)
  | .str s => decide (s ≠ "")
  | .arr elems => !elems.isEmpty
  | .obj kvs => !kvs.isEmpty

/-- `dict` lookup returning `none` when the key is absent. -/
def pyGetOpt (kvs : List (String × Json)) (k : String) : Option Json :=
  (kvs.find? (fun p => p.1 == k)).map (fun p => p.2)

/-- Python `dict.get(k)`: absent keys yield `None`. -/
def pyGet (kvs : List (String × Json)) (k : String) : Json :=
  (pyGetOpt kvs k).getD .null

/-- A JSON value used as a Python number.  `True`/`False` count as 1/0;
anything else makes the arithmetic in `extraction.py` raise, modelled as
`none`. -/
def toNum : Json → Option ℚ
  | .num q => some q
  | .bool b => some (if b then 1 else 0)
  | _ => none

/-- One term of the subtotal sum of `extraction.py` lines 93-97:
`item.get('price', 0) * item.get('quantity', 1)`.  A non-dict item or a
non-numeric price/quantity raises (`AttributeError`/`TypeError`, possibly
at the enclosing `sum`), modelled as `none`. -/
def itemTerm : Json → Option ℚ
  | .obj kvs => do
      let p ← toNum ((pyGetOpt kvs "price").getD (.num 0))
      let q ← toNum ((pyGetOpt kvs "quantity").getD (.num 1))
      pure (p * q)
  | _ => none

/-- `sum(item.get('price', 0) * item.get('quantity', 1) for item in items)`. -/
def sumItems (items : List Json) : Option ℚ :=
  (items.mapM itemTerm).map (fun l => l.sum)

/-- Round to the nearest integer, ties to even (CPython `round`). -/
def roundHalfEven (q : ℚ) : ℤ :=
  let f := ⌊q⌋
  let frac := q - f
  if frac < 1/2 then f
  else if 1/2 < frac then f + 1
  else if f % 2 = 0 then f else f + 1

/-- Python `round(q, 2)` over the rational model of Python numbers. -/
def pyRound2 (q : ℚ) : ℚ :=
  (roundHalfEven (100 * q) : ℚ) / 100

/-- Python `d[k] = v` on a dict: update the existing key in place, else
append the new key at the end (insertion order). -/
def setKey (kvs : List (String × Json)) (k : String) (v : Json) :
    List (String × Json) :=
  if kvs.any (fun p => p.1 == k) then
    kvs.map (fun p => if p.1 == k then (k, v) else p)
  else kvs ++ [(k, v)]

/-! ## `extraction.py`: response cleanup, JSON parse, subtotal auto-fill

`json.loads` is third-party; it is passed in as an oracle
`loads : List Char → Option Json` (`none` = `json.JSONDecodeError`).
-/

/-- Lines 83-87 of `extraction.py`: strip the response, and if it starts
with a backtick fence remove the fence markers and strip again. -/
def clean_response_text (response_text : List Char) : List Char :=
  let t := pyStrip response_text
  if pyStartswith t tick3 then
    pyStrip (pyReplace tick3 [] (pyReplace tickJson [] t))
  else t

/-- Lines 91-99 of `extraction.py`: if `items` is truthy and `subtotal` is
not, compute the item sum and, when positive, store it (rounded to two
decimals) under `subtotal`.  `none` models an uncaught exception (`.get` on
a non-dict, iterating a non-list, non-numeric arithmetic). -/
def autofill_subtotal : Json → Option Json
  | .obj kvs =>
    if pyTruthy (pyGet kvs "items") && !pyTruthy (pyGet kvs "subtotal") then
      match pyGet kvs "items" with
      | .arr items =>
        match sumItems items with
        | some s =>
          if 0 < s then
            some (.obj (setKey kvs "subtotal" (.num (pyRound2 s))))
          else
            some (.obj kvs)
        | none => none
      | _ => none
    else
      some (.obj kvs)
  | _ => none

/-- The response-handling phase of `extract_receipt_info`
(lines 82-110): clean the text, `json.loads` it, auto-fill the subtotal;
on `JSONDecodeError` return the two-field error dict with the raw response
verbatim.  `none` models an exception escaping `extract_receipt_info`. -/
def parse_receipt_response (loads : List Char → Option Json)
    (response_text : List Char) : Option Json :=
  match loads (clean_response_text response_text) with
  | none =>
    some (.obj [("error", .str "Failed to parse receipt"),
                ("raw_response", .str (String.mk response_text))])
  | some j => autofill_subtotal j

/-- The receipt fields requested by `RECEIPT_EXTRACTION_PROMPT`. -/
def receiptFields : List String :=
  ["merchant_name", "date", "time", "total", "subtotal", "tax",
   "payment_method", "items", "category", "address", "phone",
   "receipt_number"]

/-! ## Events

Observable calls into third-party components, shared by the preprocessing
and pipeline models so that the two can be compared: a pipeline trace could
contain `cv2` events if and only if the pipeline invoked the preprocessing
chain.
-/

/-- The `cv2` library functions called by `preprocessing.py`. -/
inductive Cv2Fn where
  | cvtColorBGR2GRAY
  | gaussianBlur
  | adaptiveThreshold
  | findNonZero
  | minAreaRect
  | getRotationMatrix2D
  | warpAffine
deriving DecidableEq

/-- `cv2` calls that are image filters: they take an image and return an
image.  `findNonZero` returns pixel coordinates, `minAreaRect` a rectangle
and `getRotationMatrix2D` a 2x3 matrix, so they are not image filters. -/
def Cv2Fn.isImageFilter : Cv2Fn → Bool
  | .cvtColorBGR2GRAY => true
  | .gaussianBlur => true
  | .adaptiveThreshold => true
  | .warpAffine => true
  | .findNonZero => false
  | .minAreaRect => false
  | .getRotationMatrix2D => false

/-- An observable step of the system. -/
inductive Ev where
  | convertFromPath (path : String)
  | imageOpen (path : String)
  | cv2 (f : Cv2Fn)
  | apiCall
  | sleep (seconds : Nat)
  | append
deriving DecidableEq

/-- Is this event a call into the computer-vision library (a preprocessing
step)? -/
def Ev.isCv2 : Ev → Bool
  | .cv2 _ => true
  | _ => false

/-- Is this event an image-filter call of the preprocessing chain? -/
def Ev.isImageFilter : Ev → Bool
  | .cv2 f => f.isImageFilter
  | _ => false

/-! ## `preprocessing.py`

Images are a free term algebra over the `cv2` primitives: the pixel
semantics lives in the library, so a processed image is just the record of
the filters applied to a source image.  The two measurements `cv2` makes of
an image - its `shape` and the `minAreaRect` angle of its non-zero pixels -
are uninterpreted oracles.  Every repository function returns the resulting
image together with the list of `cv2` calls it made, in call order.
-/

/-- An image as a term over the `cv2` operations applied to it.
`warpAffine` records the rotation-matrix parameters
(`cv2.getRotationMatrix2D(center, angle, 1.0)`). -/
inductive Img where
  | source (id : Nat)
  | cvtColorBGR2GRAY (i : Img)
  | gaussianBlur5x5 (i : Img)
  | adaptiveThresholdGaussian (i : Img)
  | warpAffineRotation (i : Img) (center : Nat × Nat) (angle : ℚ)
deriving DecidableEq

/-- `convert_to_grayscale`: `cv2.cvtColor(image, cv2.COLOR_BGR2GRAY)`. -/
def convert_to_grayscale (image : Img) : Img × List Ev :=
  (.cvtColorBGR2GRAY image, [.cv2 .cvtColorBGR2GRAY])

/-- `reduce_noise`: `cv2.GaussianBlur(gray_image, (5, 5), 0)`. -/
def reduce_noise (gray_image : Img) : Img × List Ev :=
  (.gaussianBlur5x5 gray_image, [.cv2 .gaussianBlur])

/-- `binarize_image`: `cv2.adaptiveThreshold(..., 255,
ADAPTIVE_THRESH_GAUSSIAN_C, THRESH_BINARY, 11, 4)`. -/
def binarize_image (blur_reduced_image : Img) : Img × List Ev :=
  (.adaptiveThresholdGaussian blur_reduced_image, [.cv2 .adaptiveThreshold])

/-- `deskew_image`, parameterised by the `cv2` measurement oracles:
`shape i` is `i.shape[:2]` as `(h, w)` and `rectAngle i` is
`cv2.minAreaRect(cv2.findNonZero(i))[-1]`.  The function computes the skew
angle from the minimum-area rectangle, adjusts it, and applies the same
rotation twice (to the binary image, then to the result). -/
def deskew_image (shape : Img → Nat × Nat) (rectAngle : Img → ℚ)
    (image : Img) : Img × List Ev :=
  -- coords = cv2.findNonZero(image); rect = cv2.minAreaRect(coords)
  let angle0 : ℚ := rectAngle image - 90
  -- if angle < -45: angle = -(90 + angle)
  let angle : ℚ := if angle0 < -45 then -(90 + angle0) else angle0
  -- (h, w) = image.shape[:2]; center = (w // 2, h // 2)
  let hw := shape image
  let center : Nat × Nat := (hw.2 / 2, hw.1 / 2)
  let rotated : Img := .warpAffineRotation image center angle
  -- (h, w) = rotated.shape; center = (w // 2, h // 2)
  let hw2 := shape rotated
  let center2 : Nat × Nat := (hw2.2 / 2, hw2.1 / 2)
  let deskewed_gray : Img := .warpAffineRotation rotated center2 angle
  (deskewed_gray,
   [.cv2 .findNonZero, .cv2 .minAreaRect, .cv2 .getRotationMatrix2D,
    .cv2 .warpAffine, .cv2 .getRotationMatrix2D, .cv2 .warpAffine])

/-- `process_one_image`: grayscale, then noise reduction, then
binarization, then deskewing, threading the image through and
concatenating the `cv2` calls in program order. -/
def process_one_image (shape : Img → Nat × Nat) (rectAngle : Img → ℚ)
    (image : Img) : Img × List Ev :=
  let s1 := convert_to_grayscale image
  let s2 := reduce_noise s1.1
  let s3 := binarize_image s2.1
  let s4 := deskew_image shape rectAngle s3.1
  (s4.1, s1.2 ++ s2.2 ++ s3.2 ++ s4.2)

/-! ## `pipeline.py`

`process_receipt_dataset` is modelled against two oracles: `env` gives, per
file path, what the third-party calls of that iteration did (failure while
loading the file, failure of the Gemini call, or a model response with its
usage metadata), and `loads` is `json.loads`.  The function's return value
is an `Option`: after the loop, the summary `print` divides by
`len(file_paths)`, so on an empty list the function raises
`ZeroDivisionError` (`none`) instead of returning.
-/

/-- The fields of `response.usage_metadata` read by `pipeline.py`;
`thoughts_token_count` is read with `getattr(..., 0)`, so it may be
absent. -/
structure UsageMetadata where
  prompt_token_count : Nat
  thoughts_token_count : Option Nat
  candidates_token_count : Nat
  total_token_count : Nat
deriving DecidableEq

/-- What the third-party calls did for one file. -/
inductive FileOutcome where
  | loadError (msg : String)
  | apiError (msg : String)
  | response (text : List Char) (usage : UsageMetadata)

/-- The `token_usage` dict appended for each file. -/
structure TokenUsage where
  prompt : Nat
  thoughts : Nat
  output : Nat
  total : Nat
deriving DecidableEq

/-- One element of the `results` list: the three-key dict
`file_path` / `extracted_info` / `token_usage` built by `pipeline.py`
(both in the success branch and in the `except` branch). -/
structure ResultEntry where
  file_path : String
  extracted_info : Json
  token_usage : TokenUsage

/-- `file_path.lower().endswith('.pdf')`. -/
def isPdfPath (file_path : String) : Bool :=
  pyEndswith (pyLower file_path.toList) ['.', 'p', 'd', 'f']

/-- The image-loading step: `convert_from_path` for PDFs, `PIL.Image.open`
otherwise. -/
def loadEv (file_path : String) : Ev :=
  if isPdfPath file_path then .convertFromPath file_path else .imageOpen file_path

/-- The entry appended by the `except` branch:
`extracted_info = {'error': str(e)}` and an all-zero `token_usage`. -/
def errorEntry (file_path msg : String) : ResultEntry :=
  { file_path := file_path
    extracted_info := .obj [("error", .str msg)]
    token_usage := ⟨0, 0, 0, 0⟩ }

/-- The entry appended on success, with the token counts copied from the
usage metadata (`thoughts` via `getattr(..., 0)`). -/
def okEntry (file_path : String) (info : Json) (u : UsageMetadata) :
    ResultEntry :=
  { file_path := file_path
    extracted_info := info
    token_usage :=
      ⟨u.prompt_token_count, u.thoughts_token_count.getD 0,
       u.candidates_token_count, u.total_token_count⟩ }

/-- The single entry appended for one file: per-file exceptions (load
failure, Gemini failure, or an exception escaping the response-handling
phase, whose Python message is abbreviated here as `TypeError`) all land in
the `except` branch. -/
def entryFor (env : String → FileOutcome) (loads : List Char → Option Json)
    (file_path : String) : ResultEntry :=
  match env file_path with
  | .loadError e => errorEntry file_path e
  | .apiError e => errorEntry file_path e
  | .response text usage =>
    match parse_receipt_response loads text with
    | some info => okEntry file_path info usage
    | none => errorEntry file_path "TypeError"

/-- The observable events of one loop iteration.  The Gemini call happens
only if loading the file succeeded; exactly one entry is appended either
way. -/
def fileBlock (env : String → FileOutcome) (file_path : String) : List Ev :=
  match env file_path with
  | .loadError _ => [loadEv file_path, .append]
  | .apiError _ => [loadEv file_path, .apiCall, .append]
  | .response _ _ => [loadEv file_path, .apiCall, .append]

/-- The full event trace of the loop: the per-file blocks, with
`time.sleep(sleep_time)` between consecutive files (skipped after the last
file, and skipped entirely when `sleep_time` is 0). -/
def pipelineTrace (env : String → FileOutcome) (sleep_time : Nat) :
    List String → List Ev
  | [] => []
  | [f] => fileBlock env f
  | f :: rest =>
    fileBlock env f ++ (if 0 < sleep_time then [.sleep sleep_time] else [])
      ++ pipelineTrace env sleep_time rest

/-- `process_receipt_dataset`: the returned `results` list, one entry per
file in input order.  On an empty input the final summary line divides the
elapsed time by `len(file_paths)` and raises `ZeroDivisionError`, so
nothing is returned (`none`). -/
def process_receipt_dataset (env : String → FileOutcome)
    (loads : List Char → Option Json) (sleep_time : Nat)
    (file_paths : List String) : Option (List ResultEntry) :=
  let _ := sleep_time
  if file_paths.isEmpty then none
  else some (file_paths.map (entryFor env loads))

/-! ## The package `__init__.py`

`__init__.py` does three `from . import` statements.  An import of a name
a module does not define raises `ImportError`, so the package import model
walks the imports in order and reports the first missing name.
-/

/-- Module-level names defined by `preprocessing.py`. -/
def preprocessing_module_names : List String :=
  ["convert_pdf_to_image", "convert_to_grayscale", "reduce_noise",
   "binarize_image", "deskew_image", "process_one_image"]

/-- Module-level names defined by `extraction.py`. -/
def extraction_module_names : List String :=
  ["RECEIPT_EXTRACTION_PROMPT", "extract_receipt_info", "categorize_expense"]

/-- Module-level names defined by `pipeline.py`. -/
def pipeline_module_names : List String :=
  ["process_receipt_dataset"]

/-- The `from .<module> import <names>` statements of `__init__.py`, in
source order, paired with the names their target module defines. -/
def init_imports : List (List String × List String) :=
  [(preprocessing_module_names,
    ["convert_pdf_to_image", "convert_to_grayscale", "reduce_noise",
     "binarize_image", "deskew_image", "process_one_image"]),
   (extraction_module_names,
    ["extract_text_from_image", "extract_resume_info"]),
   (pipeline_module_names,
    ["process_resume_dataset"])]

/-- Executing `__init__.py`: each imported name must be defined by its
module; the first missing name raises `ImportError` naming it. -/
def import_doc_extractor : Except String Unit :=
  init_imports.foldl
    (fun acc imp =>
      match acc with
      | .error e => .error e
      | .ok _ =>
        match imp.2.find? (fun n => !(imp.1.contains n)) with
        | some missing => .error missing
        | none => .ok ())
    (.ok ())

/-! ## Sample oracles used by witnesses and counterexamples -/

/-- A sample environment: every file loads and the model answers `ok`. -/
def envSample : String → FileOutcome :=
  fun _ => .response ['o', 'k'] ⟨1, none, 1, 2⟩

/-- A sample environment with one failing file. -/
def envOneFailure : String → FileOutcome :=
  fun p =>
    if p = "bad.jpg" then .loadError "boom"
    else .response ['o', 'k'] ⟨1, none, 1, 2⟩

/-- A `json.loads` oracle that always reports a decode error. -/
def loadsNone : List Char → Option Json := fun _ => none

/-- A sample parsed receipt: one item, a non-zero item sum, no subtotal. -/
def sampleDict : List (String × Json) :=
  [("items", .arr [.obj [("name", .str "pen"), ("quantity", .num 2),
     ("price", .num (5/2))]]),
   ("total", .num 5)]

/-- The items list of `sampleDict`. -/
def sampleItems : List Json :=
  [.obj [("name", .str "pen"), ("quantity", .num 2), ("price", .num (5/2))]]

/-- A parsed receipt whose item has `null` price and quantity - output the
prompt itself invites ("If information is not available, use null"). -/
def badItemsDict : List (String × Json) :=
  [("items", .arr [.obj [("name", .str "x"), ("price", .null),
     ("quantity", .null)]])]

/-! ## String lemmas -/

lemma containsTriple_cons (c : Char) (l : List Char) :
    containsTriple (c :: l) =
      ((c = tick && 2 ≤ leadTicks l) || containsTriple l) := by
  match l with
  | [] => simp [containsTriple, leadTicks]
  | [a] =>
    by_cases ha : a = tick <;> simp [containsTriple, leadTicks, ha]
  | a :: b :: rest =>
    by_cases ha : a = tick
    · by_cases hb : b = tick
      · have h2 : 2 ≤ leadTicks rest + 1 + 1 := by omega
        simp [containsTriple, leadTicks, ha, hb, h2]
      · simp [containsTriple, leadTicks, ha, hb]
    · simp [containsTriple, leadTicks, ha]

lemma containsTriple_cons_of (c : Char) (l : List Char)
    (h : containsTriple l = true) : containsTriple (c :: l) = true := by
  rw [containsTriple_cons]
  simp [h]

lemma pyReplace_tick3_bound :
    ∀ fuel s, s.length ≤ fuel →
      leadTicks (pyReplace tick3 [] s) ≤ 2 ∧
      leadTicks (pyReplace tick3 [] s) ≤ leadTicks s ∧
      containsTriple (pyReplace tick3 [] s) = false := by
  intro fuel
  induction fuel with
  | zero =>
    intro s hs
    have hnil : s = [] := List.length_eq_zero.mp (Nat.le_zero.mp hs)
    subst hnil
    simp [pyReplace, leadTicks, containsTriple]
  | succ n ih =>
    intro s hs
    match s with
    | [] => simp [pyReplace, leadTicks, containsTriple]
    | c :: cs =>
      by_cases hpre : tick3.isPrefixOf (c :: cs)
      · match cs with
        | [] => simp [tick3, List.isPrefixOf] at hpre
        | [c2] => simp [tick3, List.isPrefixOf] at hpre
        | c2 :: c3 :: rest =>
          have hshape : tick = c ∧ tick = c2 ∧ tick = c3 := by
            simpa [tick3, List.isPrefixOf] using hpre
          have hc : c = tick := hshape.1.symm
          have hc2 : c2 = tick := hshape.2.1.symm
          have hc3 : c3 = tick := hshape.2.2.symm
          have hguard : tick3 ≠ [] ∧ tick3.isPrefixOf (c :: c2 :: c3 :: rest) = true := by
            exact ⟨by simp [tick3], hpre⟩
          have hunfold :
              pyReplace tick3 [] (c :: c2 :: c3 :: rest) = pyReplace tick3 [] rest := by
            rw [pyReplace, if_pos hguard]
            simp [tick3]
          have hlen : rest.length ≤ n := by
            simp only [List.length_cons] at hs
            omega
          obtain ⟨h1, h2, h3⟩ := ih rest hlen
          refine ⟨by rw [hunfold]; exact h1, ?_, by rw [hunfold]; exact h3⟩
          rw [hunfold]
          subst hc hc2 hc3
          have hfull : leadTicks (tick :: tick :: tick :: rest) = leadTicks rest + 3 := by
            simp [leadTicks]
          rw [hfull]
          omega
      · have hguard : ¬ (tick3 ≠ [] ∧ tick3.isPrefixOf (c :: cs) = true) := by
          intro h
          exact hpre h.2
        have hunfold :
            pyReplace tick3 [] (c :: cs) = c :: pyReplace tick3 [] cs := by
          rw [pyReplace, if_neg hguard]
        have hlen : cs.length ≤ n := by
          simp only [List.length_cons] at hs
          omega
        obtain ⟨h1, h2, h3⟩ := ih cs hlen
        rw [hunfold]
        by_cases hc : c = tick
        · subst hc
          -- the guard failed with a leading backtick, so cs starts with at most one
          have hlt : leadTicks cs ≤ 1 := by
            match cs with
            | [] => simp [leadTicks]
            | [d] => by_cases hd : d = tick <;> simp [leadTicks, hd]
            | d :: e :: more =>
              by_cases hd : d = tick
              · by_cases he : e = tick
                · exfalso
                  apply hpre
                  subst hd he
                  simp [tick3, List.isPrefixOf]
                · simp [leadTicks, hd, he]
              · simp [leadTicks, hd]
          have hlead : leadTicks (pyReplace tick3 [] cs) ≤ 1 := le_trans h2 hlt
          have hstep : leadTicks (tick :: pyReplace tick3 [] cs) =
              leadTicks (pyReplace tick3 [] cs) + 1 := by
            simp [leadTicks]
          have hstep2 : leadTicks (tick :: cs) = leadTicks cs + 1 := by
            simp [leadTicks]
          refine ⟨?_, ?_, ?_⟩
          · rw [hstep]
            omega
          · rw [hstep, hstep2]
            omega
          · rw [containsTriple_cons]
            have hne : ¬ (2 ≤ leadTicks (pyReplace tick3 [] cs)) := by omega
            simp [h3, hne]
        · refine ⟨?_, ?_, ?_⟩
          · simp [leadTicks, hc]
          · simp [leadTicks, hc]
          · rw [containsTriple_cons]
            simp [h3, hc]

/-- The second `replace` pass of `extraction.py` (`.replace('```', '')`)
really removes every occurrence of three consecutive backticks: no triple
backtick survives in its output, whatever the input. -/
theorem containsTriple_pyReplace_tick3 (s : List Char) :
    containsTriple (pyReplace tick3 [] s) = false :=
  (pyReplace_tick3_bound s.length s le_rfl).2.2

lemma leadTicks_le_append (cs t : List Char) :
    leadTicks cs ≤ leadTicks (cs ++ t) := by
  induction cs with
  | nil => simp [leadTicks]
  | cons c cs ih =>
    by_cases hc : c = tick
    · subst hc
      have h1 : leadTicks (tick :: cs) = leadTicks cs + 1 := by
        simp [leadTicks]
      have h2 : leadTicks (tick :: (cs ++ t)) = leadTicks (cs ++ t) + 1 := by
        simp [leadTicks]
      rw [List.cons_append, h1, h2]
      omega
    · simp [leadTicks, hc]

lemma containsTriple_append_right (m t : List Char)
    (h : containsTriple m = true) : containsTriple (m ++ t) = true := by
  induction m with
  | nil => simp [containsTriple] at h
  | cons c cs ih =>
    rw [containsTriple_cons] at h
    rw [List.cons_append, containsTriple_cons]
    rcases Bool.or_eq_true_iff.mp h with h1 | h2
    · have hc : c = tick := by
        rcases Bool.and_eq_true_iff.mp h1 with ⟨ha, _⟩
        exact of_decide_eq_true ha
      have hl : 2 ≤ leadTicks cs := by
        rcases Bool.and_eq_true_iff.mp h1 with ⟨_, hb⟩
        exact of_decide_eq_true hb
      have : 2 ≤ leadTicks (cs ++ t) := le_trans hl (leadTicks_le_append cs t)
      simp [hc, this]
    · simp [ih h2]

lemma containsTriple_append_left (p m : List Char)
    (h : containsTriple m = true) : containsTriple (p ++ m) = true := by
  induction p with
  | nil => simpa using h
  | cons c cs ih => exact containsTriple_cons_of c (cs ++ m) ih

lemma dropEndWhile_decomp (p : Char → Bool) :
    ∀ l : List Char, ∃ t, dropEndWhile p l ++ t = l := by
  intro l
  induction l with
  | nil => exact ⟨[], rfl⟩
  | cons c cs ih =>
    obtain ⟨t, ht⟩ := ih
    rcases heq : dropEndWhile p cs with _ | ⟨d, ds⟩
    · by_cases hc : p c
      · exact ⟨c :: cs, by simp [dropEndWhile, heq, hc]⟩
      · refine ⟨cs, ?_⟩
        simp [dropEndWhile, heq, hc]
    · refine ⟨t, ?_⟩
      rw [heq] at ht
      simp [dropEndWhile, heq]
      simpa using ht

/-- `str.strip()` only discards characters at the two ends, so it cannot
create a backtick fence that was not already present. -/
lemma containsTriple_pyStrip (s : List Char)
    (h : containsTriple s = false) : containsTriple (pyStrip s) = false := by
  by_contra hne
  have htrue : containsTriple (pyStrip s) = true := by
    cases hval : containsTriple (pyStrip s)
    · exact absurd hval hne
    · rfl
  obtain ⟨t, ht⟩ := dropEndWhile_decomp isPySpace (s.dropWhile isPySpace)
  have hdrop : containsTriple (s.dropWhile isPySpace) = true := by
    rw [← ht]
    exact containsTriple_append_right _ _ htrue
  have hs : containsTriple s = true := by
    have hdecomp : s.takeWhile isPySpace ++ s.dropWhile isPySpace = s :=
      List.takeWhile_append_dropWhile isPySpace s
    rw [← hdecomp]
    exact containsTriple_append_left _ _ hdrop
  rw [h] at hs
  exact Bool.false_ne_true hs

/-! ## Helper lemmas -/

lemma loadEv_not_cv2 (f : String) : (loadEv f).isCv2 = false := by
  unfold loadEv
  split <;> rfl

lemma loadEv_beq_apiCall (f : String) : (loadEv f == Ev.apiCall) = false := by
  unfold loadEv
  split <;> rfl

lemma fileBlock_count_apiCall (env : String → FileOutcome) (f : String) :
    (fileBlock env f).count Ev.apiCall =
      (match env f with
       | .loadError _ => 0
       | .apiError _ => 1
       | .response _ _ => 1) := by
  cases henv : env f <;>
    simp [fileBlock, henv, List.count_cons, List.count_nil, loadEv_beq_apiCall]

lemma fileBlock_filter_cv2 (env : String → FileOutcome) (f : String) :
    (fileBlock env f).filter Ev.isCv2 = [] := by
  have h1 : Ev.isCv2 Ev.append = false := rfl
  have h2 : Ev.isCv2 Ev.apiCall = false := rfl
  cases henv : env f <;>
    simp [fileBlock, henv, List.filter_cons, loadEv_not_cv2, h1, h2]

lemma pipelineTrace_cons_of_ne_nil (env : String → FileOutcome)
    (sleep_time : Nat) (f : String) (l : List String) (h : l ≠ []) :
    pipelineTrace env sleep_time (f :: l) =
      fileBlock env f ++ (if 0 < sleep_time then [Ev.sleep sleep_time] else [])
        ++ pipelineTrace env sleep_time l := by
  match l with
  | [] => exact absurd rfl h
  | g :: gs => rfl

lemma pipelineTrace_head_decomp (env : String → FileOutcome)
    (sleep_time : Nat) (f : String) (l : List String) :
    ∃ t, pipelineTrace env sleep_time (f :: l) = fileBlock env f ++ t := by
  match l with
  | [] => exact ⟨[], by simp [pipelineTrace]⟩
  | g :: gs =>
    refine ⟨(if 0 < sleep_time then [Ev.sleep sleep_time] else [])
      ++ pipelineTrace env sleep_time (g :: gs), ?_⟩
    rw [pipelineTrace_cons_of_ne_nil env sleep_time f (g :: gs) (by simp),
      List.append_assoc]

lemma pipelineTrace_filter_cv2 (env : String → FileOutcome)
    (sleep_time : Nat) (files : List String) :
    (pipelineTrace env sleep_time files).filter Ev.isCv2 = [] := by
  induction files with
  | nil => rfl
  | cons f rest ih =>
    match rest with
    | [] => simpa [pipelineTrace] using fileBlock_filter_cv2 env f
    | g :: gs =>
      rw [pipelineTrace_cons_of_ne_nil env sleep_time f (g :: gs) (by simp)]
      simp only [List.filter_append, fileBlock_filter_cv2, ih]
      split <;> simp [Ev.isCv2]

lemma pipelineTrace_count_apiCall_le (env : String → FileOutcome)
    (sleep_time : Nat) (files : List String) :
    (pipelineTrace env sleep_time files).count Ev.apiCall ≤ files.length := by
  induction files with
  | nil => simp [pipelineTrace]
  | cons f rest ih =>
    have hblock : (fileBlock env f).count Ev.apiCall ≤ 1 := by
      rw [fileBlock_count_apiCall]
      cases env f <;> simp
    match rest with
    | [] =>
      simpa [pipelineTrace] using le_trans hblock (by simp)
    | g :: gs =>
      rw [pipelineTrace_cons_of_ne_nil env sleep_time f (g :: gs) (by simp)]
      have hsleep :
          ((if 0 < sleep_time then [Ev.sleep sleep_time] else []) :
            List Ev).count Ev.apiCall = 0 := by
        split <;> simp
      simp only [List.count_append, hsleep, List.length_cons]
      have hb : (g :: gs).length = gs.length + 1 := rfl
      omega

section SetKeyLemmas

lemma find?_cons_true {α : Type} (p : α → Bool) (a : α) (l : List α)
    (h : p a = true) : (a :: l).find? p = some a := by
  simp [List.find?, h]

lemma find?_cons_false {α : Type} (p : α → Bool) (a : α) (l : List α)
    (h : p a = false) : (a :: l).find? p = l.find? p := by
  simp [List.find?, h]

variable (k k' : String) (v : Json)

lemma find?_map_update (kvs : List (String × Json)) :
    (kvs.map (fun p => if p.1 == k then (k, v) else p)).find?
        (fun p => p.1 == k) =
      (kvs.find? (fun p => p.1 == k)).map (fun _ => ((k, v) : String × Json)) := by
  induction kvs with
  | nil => rfl
  | cons p ps ih =>
    by_cases hp : (p.1 == k) = true
    · have hmap : (p :: ps).map (fun q => if q.1 == k then (k, v) else q) =
          (k, v) :: ps.map (fun q => if q.1 == k then (k, v) else q) := by
        rw [List.map_cons, if_pos hp]
      rw [hmap, find?_cons_true (fun q => q.1 == k) (k, v) _ (by simp),
        find?_cons_true (fun q => q.1 == k) p ps hp]
      rfl
    · have hpf : (p.1 == k) = false := by
        simpa using hp
      have hmap : (p :: ps).map (fun q => if q.1 == k then (k, v) else q) =
          p :: ps.map (fun q => if q.1 == k then (k, v) else q) := by
        rw [List.map_cons, if_neg hp]
      rw [hmap, find?_cons_false (fun q => q.1 == k) p _ hpf,
        find?_cons_false (fun q => q.1 == k) p ps hpf, ih]

lemma find?_map_update_other (h : k' ≠ k) (kvs : List (String × Json)) :
    (kvs.map (fun p => if p.1 == k then (k, v) else p)).find?
        (fun p => p.1 == k') =
      kvs.find? (fun p => p.1 == k') := by
  induction kvs with
  | nil => rfl
  | cons p ps ih =>
    by_cases hp : (p.1 == k) = true
    · have hpk : p.1 = k := by
        simpa using hp
      have hk : ((k : String) == k') = false := by
        simpa using h.symm
      have hpk' : (p.1 == k') = false := by
        rw [hpk]
        exact hk
      have hmap : (p :: ps).map (fun q => if q.1 == k then (k, v) else q) =
          (k, v) :: ps.map (fun q => if q.1 == k then (k, v) else q) := by
        rw [List.map_cons, if_pos hp]
      rw [hmap, find?_cons_false (fun q => q.1 == k') (k, v) _ hk,
        find?_cons_false (fun q => q.1 == k') p ps hpk', ih]
    · have hmap : (p :: ps).map (fun q => if q.1 == k then (k, v) else q) =
          p :: ps.map (fun q => if q.1 == k then (k, v) else q) := by
        rw [List.map_cons, if_neg hp]
      by_cases hq : (p.1 == k') = true
      · rw [hmap, find?_cons_true (fun q => q.1 == k') p _ hq,
          find?_cons_true (fun q => q.1 == k') p ps hq]
      · have hqf : (p.1 == k') = false := by
          simpa using hq
        rw [hmap, find?_cons_false (fun q => q.1 == k') p _ hqf,
          find?_cons_false (fun q => q.1 == k') p ps hqf, ih]

lemma find?_of_any_false (kvs : List (String × Json))
    (h : kvs.any (fun p => p.1 == k) = false) :
    kvs.find? (fun p => p.1 == k) = none := by
  induction kvs with
  | nil => rfl
  | cons p ps ih =>
    simp only [List.any_cons, Bool.or_eq_false_iff] at h
    rw [find?_cons_false (fun p => p.1 == k) p ps h.1]
    exact ih h.2

lemma find?_append_of_none {α : Type} (p : α → Bool) (l₁ l₂ : List α)
    (h : l₁.find? p = none) : (l₁ ++ l₂).find? p = l₂.find? p := by
  induction l₁ with
  | nil => rfl
  | cons a as ih =>
    by_cases ha : p a = true
    · rw [find?_cons_true _ _ _ ha] at h
      exact absurd h (by simp)
    · have haf : p a = false := by
        simpa using ha
      rw [find?_cons_false _ _ _ haf] at h
      rw [List.cons_append, find?_cons_false _ _ _ haf]
      exact ih h

lemma find?_append_of_some {α : Type} (p : α → Bool) (l₁ l₂ : List α)
    (x : α) (h : l₁.find? p = some x) : (l₁ ++ l₂).find? p = some x := by
  induction l₁ with
  | nil => exact absurd h (by simp [List.find?])
  | cons a as ih =>
    by_cases ha : p a = true
    · rw [find?_cons_true _ _ _ ha] at h
      rw [List.cons_append, find?_cons_true _ _ _ ha]
      exact h
    · have haf : p a = false := by
        simpa using ha
      rw [find?_cons_false _ _ _ haf] at h
      rw [List.cons_append, find?_cons_false _ _ _ haf]
      exact ih h

lemma pyGetOpt_setKey_same (kvs : List (String × Json)) :
    pyGetOpt (setKey kvs k v) k = some v := by
  unfold setKey pyGetOpt
  by_cases hany : kvs.any (fun p => p.1 == k) = true
  · rw [if_pos hany, find?_map_update]
    cases hf : kvs.find? (fun p => p.1 == k)
    · obtain ⟨x, hx, hpx⟩ := List.any_eq_true.mp hany
      have hsome : (kvs.find? (fun p => p.1 == k)).isSome :=
        List.find?_isSome.mpr ⟨x, hx, hpx⟩
      rw [hf] at hsome
      simp at hsome
    · simp
  · have hanyf : kvs.any (fun p => p.1 == k) = false := by
      cases hb : kvs.any (fun p => p.1 == k)
      · rfl
      · exact absurd hb hany
    rw [if_neg hany]
    rw [find?_append_of_none _ _ _ (find?_of_any_false k kvs hanyf)]
    rw [find?_cons_true (fun p => p.1 == k) (k, v) [] (by simp)]
    rfl

lemma pyGetOpt_setKey_other (h : k' ≠ k) (kvs : List (String × Json)) :
    pyGetOpt (setKey kvs k v) k' = pyGetOpt kvs k' := by
  unfold setKey pyGetOpt
  by_cases hany : kvs.any (fun p => p.1 == k) = true
  · rw [if_pos hany, find?_map_update_other k k' v h]
  · have hanyf : kvs.any (fun p => p.1 == k) = false := by
      cases hb : kvs.any (fun p => p.1 == k)
      · rfl
      · exact absurd hb hany
    rw [if_neg hany]
    have hk : ((k : String) == k') = false := by
      simpa using h.symm
    cases hf : kvs.find? (fun p => p.1 == k')
    · rw [find?_append_of_none _ _ _ hf,
        find?_cons_false (fun p => p.1 == k') (k, v) [] hk]
      rfl
    · rw [find?_append_of_some _ _ _ _ hf]

end SetKeyLemmas

lemma pyGet_setKey_same (k : String) (v : Json)
    (kvs : List (String × Json)) : pyGet (setKey kvs k v) k = v := by
  unfold pyGet
  rw [pyGetOpt_setKey_same]
  rfl

lemma pyGet_setKey_other (k k' : String) (v : Json) (h : k' ≠ k)
    (kvs : List (String × Json)) :
    pyGet (setKey kvs k v) k' = pyGet kvs k' := by
  unfold pyGet
  rw [pyGetOpt_setKey_other k k' v h]

lemma entryFor_file_path (env : String → FileOutcome)
    (loads : List Char → Option Json) (f : String) :
    (entryFor env loads f).file_path = f := by
  unfold entryFor
  cases env f with
  | loadError e => rfl
  | apiError e => rfl
  | response text usage =>
    show (match parse_receipt_response loads text with
      | some info => okEntry f info usage
      | none => errorEntry f "TypeError").file_path = f
    cases parse_receipt_response loads text with
    | some info => rfl
    | none => rfl

/-! ## Claim theorems -/

/-- Claim C8 (code_bug evidence): importing the `doc_extractor` package
executes `__init__.py`, whose `from .extraction import` names
`extract_text_from_image` - a function `extraction.py` does not define - so
the import raises `ImportError` instead of providing a local OCR
operation. -/
theorem import_doc_extractor_fails :
    import_doc_extractor = .error "extract_text_from_image" := rfl

/-- Claim C2 (confirmed): for every input image, `process_one_image`
applies exactly five image-filter calls of the computer-vision library, in
the fixed order grayscale conversion, Gaussian blur, adaptive threshold,
and the two deskewing rotations (the remaining `cv2` calls of the chain -
`findNonZero`, `minAreaRect`, `getRotationMatrix2D` - are measurements, not
image filters). -/
theorem process_one_image_five_filters (shape : Img → Nat × Nat)
    (rectAngle : Img → ℚ) (image : Img) :
    ((process_one_image shape rectAngle image).2).filter Ev.isImageFilter =
      [.cv2 .cvtColorBGR2GRAY, .cv2 .gaussianBlur, .cv2 .adaptiveThreshold,
       .cv2 .warpAffine, .cv2 .warpAffine] ∧
    (((process_one_image shape rectAngle image).2).filter
      Ev.isImageFilter).length = 5 :=
  ⟨rfl, rfl⟩

/-- Claim C6 (confirmed): per file, the loop issues the single
`generate_content` request of `extract_receipt_info` exactly once when the
file was loaded (even when that request fails, it is not reissued), no
request when loading failed, and over a whole run the number of outbound
requests never exceeds the number of files - there is no retry anywhere. -/
theorem single_api_call_no_retry (env : String → FileOutcome)
    (sleep_time : Nat) (files : List String) (f : String) :
    ((fileBlock env f).count Ev.apiCall =
      match env f with
      | .loadError _ => 0
      | .apiError _ => 1
      | .response _ _ => 1) ∧
    (pipelineTrace env sleep_time files).count Ev.apiCall ≤ files.length :=
  ⟨fileBlock_count_apiCall env f, pipelineTrace_count_apiCall_le env sleep_time files⟩

/-- Claim C1 (counterexample): processing the single receipt
`receipt.pdf` produces the trace conversion / model call / append - the
model is invoked, but no image-filter call of the preprocessing module ever
occurs, contradicting the claim that the preprocessing chain is applied to
each page image before delegation. -/
theorem pipeline_no_preprocessing_cex :
    pipelineTrace envSample 2 ["receipt.pdf"] =
      [Ev.convertFromPath "receipt.pdf", Ev.apiCall, Ev.append] ∧
    (pipelineTrace envSample 2 ["receipt.pdf"]).filter Ev.isCv2 = [] :=
  ⟨rfl, rfl⟩

/-- Claim C1 (corrected): the per-file pipeline converts the source file to
images (`convert_from_path` for PDFs, `Image.open` otherwise) and passes
the page images directly to the vision-language model; the preprocessing
chain of `preprocessing.py` is never invoked by `process_receipt_dataset`,
so no computer-vision call appears anywhere in the pipeline trace. -/
theorem pipeline_converts_then_delegates (env : String → FileOutcome)
    (sleep_time : Nat) (files : List String) (f : String)
    (text : List Char) (usage : UsageMetadata) :
    (pipelineTrace env sleep_time files).filter Ev.isCv2 = [] ∧
    (env f = .response text usage →
      fileBlock env f = [loadEv f, Ev.apiCall, Ev.append]) := by
  refine ⟨pipelineTrace_filter_cv2 env sleep_time files, ?_⟩
  intro h
  simp [fileBlock, h]

/-- Witness for `pipeline_converts_then_delegates` at a concrete run. -/
theorem pipeline_converts_then_delegates_witness :
    (pipelineTrace envSample 2 ["receipt.pdf"]).filter Ev.isCv2 = [] ∧
    fileBlock envSample "receipt.pdf" =
      [loadEv "receipt.pdf", Ev.apiCall, Ev.append] :=
  ⟨(pipeline_converts_then_delegates envSample 2 ["receipt.pdf"]
      "receipt.pdf" ['o', 'k'] ⟨1, none, 1, 2⟩).1,
   (pipeline_converts_then_delegates envSample 2 ["receipt.pdf"]
      "receipt.pdf" ['o', 'k'] ⟨1, none, 1, 2⟩).2 rfl⟩

/-- Claim C4 (confirmed): with a positive `sleep_time` N, whenever two
files are processed consecutively the trace contains the first file's
block, then exactly a `sleep N` step, then the second file's block -
`time.sleep(sleep_time)` runs between every pair of consecutive files
(and hence between consecutive model invocations, each block holding at
most one). -/
theorem sleep_between_consecutive_files (env : String → FileOutcome)
    (sleep_time : Nat) (xs ys : List String) (a b : String)
    (h : 0 < sleep_time) :
    ∃ pre post,
      pipelineTrace env sleep_time (xs ++ a :: b :: ys) =
        pre ++ fileBlock env a ++ [Ev.sleep sleep_time]
          ++ fileBlock env b ++ post := by
  induction xs with
  | nil =>
    obtain ⟨t, ht⟩ := pipelineTrace_head_decomp env sleep_time b ys
    refine ⟨[], t, ?_⟩
    rw [List.nil_append,
      pipelineTrace_cons_of_ne_nil env sleep_time a (b :: ys) (by simp),
      if_pos h, ht]
    simp [List.append_assoc]
  | cons x xs ih =>
    obtain ⟨pre, post, hpp⟩ := ih
    refine ⟨fileBlock env x ++ [Ev.sleep sleep_time] ++ pre, post, ?_⟩
    have hne : xs ++ a :: b :: ys ≠ [] := by
      cases xs <;> simp
    rw [List.cons_append,
      pipelineTrace_cons_of_ne_nil env sleep_time x (xs ++ a :: b :: ys) hne,
      if_pos h, hpp]
    simp [List.append_assoc]

/-- Witness for `sleep_between_consecutive_files`: a concrete three-file
run with `sleep_time = 2`. -/
theorem sleep_between_consecutive_files_witness :
    ∃ pre post,
      pipelineTrace envSample 2 (["x.pdf"] ++ "a.pdf" :: "b.jpg" :: []) =
        pre ++ fileBlock envSample "a.pdf" ++ [Ev.sleep 2]
          ++ fileBlock envSample "b.jpg" ++ post :=
  sleep_between_consecutive_files envSample 2 ["x.pdf"] [] "a.pdf" "b.jpg"
    (by decide)

/-- Claim C3 (counterexample): on the empty input list the final summary
statistics of `process_receipt_dataset` divide by `len(file_paths)`, so the
call raises `ZeroDivisionError` and returns nothing - not the empty results
list the claim promises for every input list. -/
theorem process_receipt_dataset_empty_cex :
    process_receipt_dataset envSample loadsNone 2 [] = none := rfl

/-- Claim C3 (corrected): for every non-empty input list,
`process_receipt_dataset` is a sequential loop that appends exactly one
entry per file, so it returns a list of the same length whose i-th entry
carries the i-th input path; on the empty list the final average-time
statistic raises `ZeroDivisionError` instead. -/
theorem process_receipt_dataset_length_order (env : String → FileOutcome)
    (loads : List Char → Option Json) (sleep_time : Nat)
    (files : List String) (h : files ≠ []) :
    process_receipt_dataset env loads sleep_time files =
      some (files.map (entryFor env loads)) ∧
    ∃ res, process_receipt_dataset env loads sleep_time files = some res ∧
      res.length = files.length ∧
      ∀ i (hi : i < res.length) (hj : i < files.length),
        (res.get ⟨i, hi⟩).file_path = (files.get ⟨i, hj⟩ : String) := by
  have hne : files.isEmpty = false := by
    cases files
    · exact absurd rfl h
    · rfl
  have hval : process_receipt_dataset env loads sleep_time files =
      some (files.map (entryFor env loads)) := by
    simp [process_receipt_dataset, hne]
  refine ⟨hval, files.map (entryFor env loads), hval, by simp, ?_⟩
  intro i hi hj
  have hget : (files.map (entryFor env loads)).get ⟨i, hi⟩ =
      entryFor env loads (files.get ⟨i, hj⟩) := by
    simp [List.get_eq_getElem, List.getElem_map]
  rw [hget, entryFor_file_path]

/-- Claim C9 (confirmed): on every non-empty run, every per-file exception
is caught by the loop's `except` branch, which appends an entry with that
file's path, `extracted_info` equal to the one-key error dict and an
all-zero token-usage record, and processing continues, so the returned list
still has one entry per file; every entry, success or failure, is the
three-key `file_path` / `extracted_info` / `token_usage` record
(`ResultEntry`). -/
theorem per_file_errors_caught (env : String → FileOutcome)
    (loads : List Char → Option Json) (sleep_time : Nat)
    (files : List String) (h : files ≠ []) :
    ∃ res, process_receipt_dataset env loads sleep_time files = some res ∧
      res.length = files.length ∧
      ∀ i (hi : i < res.length) (hj : i < files.length),
        res.get ⟨i, hi⟩ = entryFor env loads (files.get ⟨i, hj⟩) ∧
        ∀ e, (env (files.get ⟨i, hj⟩) = .loadError e ∨
              env (files.get ⟨i, hj⟩) = .apiError e) →
          res.get ⟨i, hi⟩ =
            { file_path := (files.get ⟨i, hj⟩ : String)
              extracted_info := .obj [("error", .str e)]
              token_usage := ⟨0, 0, 0, 0⟩ } := by
  have hne : files.isEmpty = false := by
    cases files
    · exact absurd rfl h
    · rfl
  have hval : process_receipt_dataset env loads sleep_time files =
      some (files.map (entryFor env loads)) := by
    simp [process_receipt_dataset, hne]
  refine ⟨files.map (entryFor env loads), hval, by simp, ?_⟩
  intro i hi hj
  have hget : (files.map (entryFor env loads)).get ⟨i, hi⟩ =
      entryFor env loads (files.get ⟨i, hj⟩) := by
    simp [List.get_eq_getElem, List.getElem_map]
  refine ⟨hget, ?_⟩
  intro e he
  rw [hget]
  unfold entryFor
  rcases he with he | he <;> rw [he] <;> rfl

/-- Witness for `per_file_errors_caught` on a run where the second file
fails to load. -/
theorem per_file_errors_caught_witness :
    ∃ res, process_receipt_dataset envOneFailure loadsNone 2
        ["good.pdf", "bad.jpg"] = some res ∧
      res.length = (["good.pdf", "bad.jpg"] : List String).length ∧
      ∀ i (hi : i < res.length)
        (hj : i < (["good.pdf", "bad.jpg"] : List String).length),
        res.get ⟨i, hi⟩ = entryFor envOneFailure loadsNone
          ((["good.pdf", "bad.jpg"] : List String).get ⟨i, hj⟩) ∧
        ∀ e, (envOneFailure ((["good.pdf", "bad.jpg"] : List String).get
                ⟨i, hj⟩) = .loadError e ∨
              envOneFailure ((["good.pdf", "bad.jpg"] : List String).get
                ⟨i, hj⟩) = .apiError e) →
          res.get ⟨i, hi⟩ =
            { file_path :=
                ((["good.pdf", "bad.jpg"] : List String).get ⟨i, hj⟩ : String)
              extracted_info := .obj [("error", .str e)]
              token_usage := ⟨0, 0, 0, 0⟩ } :=
  per_file_errors_caught envOneFailure loadsNone 2 ["good.pdf", "bad.jpg"]
    (by simp)

/-- Claim C5 (confirmed): when the stripped model response starts with a
backtick fence, the text handed to `json.loads` is the stripped response
with the fence markers removed (and, observably, no triple backtick
survives that removal); otherwise the stripped response is handed over
unchanged - and the parse outcome depends on the response only through
that cleaned text. -/
theorem clean_response_strips_fences (s : List Char) :
    (pyStartswith (pyStrip s) tick3 = true →
       clean_response_text s =
         pyStrip (pyReplace tick3 [] (pyReplace tickJson [] (pyStrip s))) ∧
       containsTriple (clean_response_text s) = false) ∧
    (pyStartswith (pyStrip s) tick3 = false →
       clean_response_text s = pyStrip s) ∧
    (∀ loads₁ loads₂ : List Char → Option Json,
       loads₁ (clean_response_text s) = loads₂ (clean_response_text s) →
       parse_receipt_response loads₁ s = parse_receipt_response loads₂ s) := by
  refine ⟨?_, ?_, ?_⟩
  · intro h
    have hct : clean_response_text s =
        pyStrip (pyReplace tick3 [] (pyReplace tickJson [] (pyStrip s))) := by
      show (if pyStartswith (pyStrip s) tick3 = true then
          pyStrip (pyReplace tick3 [] (pyReplace tickJson [] (pyStrip s)))
        else pyStrip s) = _
      rw [if_pos h]
    refine ⟨hct, ?_⟩
    rw [hct]
    exact containsTriple_pyStrip _ (containsTriple_pyReplace_tick3 _)
  · intro h
    show (if pyStartswith (pyStrip s) tick3 = true then
        pyStrip (pyReplace tick3 [] (pyReplace tickJson [] (pyStrip s)))
      else pyStrip s) = pyStrip s
    rw [if_neg (by simp [h])]
  · intro loads₁ loads₂ hl
    unfold parse_receipt_response
    rw [hl]

/-- Witness for `clean_response_strips_fences` on a fenced response. -/
theorem clean_response_strips_fences_witness :
    clean_response_text ("```json\n[1]\n```".toList) =
      pyStrip (pyReplace tick3 [] (pyReplace tickJson []
        (pyStrip ("```json\n[1]\n```".toList)))) ∧
    containsTriple (clean_response_text ("```json\n[1]\n```".toList)) =
      false :=
  (clean_response_strips_fences ("```json\n[1]\n```".toList)).1 (by decide)

/-- Claim C7 (confirmed): when `json.loads` rejects the cleaned response,
`extract_receipt_info` returns exactly the two-field error dict - the error
marker and the raw response verbatim - and none of the receipt schema
fields is present: no repair, substitution or field filling of the
malformed output happens. -/
theorem no_repair_on_malformed_response (loads : List Char → Option Json)
    (response_text : List Char)
    (h : loads (clean_response_text response_text) = none) :
    parse_receipt_response loads response_text =
      some (.obj [("error", .str "Failed to parse receipt"),
                  ("raw_response", .str (String.mk response_text))]) ∧
    ∀ k ∈ receiptFields,
      pyGetOpt [("error", Json.str "Failed to parse receipt"),
                ("raw_response", Json.str (String.mk response_text))] k =
        none := by
  constructor
  · unfold parse_receipt_response
    rw [h]
  · intro k hk
    fin_cases hk <;> rfl

/-- Witness for `no_repair_on_malformed_response` on an unparseable
response. -/
theorem no_repair_on_malformed_response_witness :
    parse_receipt_response loadsNone ("oops".toList) =
      some (.obj [("error", .str "Failed to parse receipt"),
                  ("raw_response", .str (String.mk ("oops".toList)))]) ∧
    ∀ k ∈ receiptFields,
      pyGetOpt [("error", Json.str "Failed to parse receipt"),
                ("raw_response", Json.str (String.mk ("oops".toList)))] k =
        none :=
  no_repair_on_malformed_response loadsNone ("oops".toList) rfl

/-- Witness for `process_receipt_dataset_length_order` on a two-file
run. -/
theorem process_receipt_dataset_length_order_witness :
    process_receipt_dataset envSample loadsNone 2 ["a.pdf", "b.jpg"] =
      some (["a.pdf", "b.jpg"].map (entryFor envSample loadsNone)) ∧
    ∃ res,
      process_receipt_dataset envSample loadsNone 2 ["a.pdf", "b.jpg"] =
        some res ∧
      res.length = (["a.pdf", "b.jpg"] : List String).length ∧
      ∀ i (hi : i < res.length)
        (hj : i < (["a.pdf", "b.jpg"] : List String).length),
        (res.get ⟨i, hi⟩).file_path =
          ((["a.pdf", "b.jpg"] : List String).get ⟨i, hj⟩ : String) :=
  process_receipt_dataset_length_order envSample loadsNone 2
    ["a.pdf", "b.jpg"] (by simp)

/-- Claim C10 (counterexample): on the parsed output whose single item has
`null` price and `null` quantity, the auto-fill guard holds (`items` is a
non-empty list and there is no truthy subtotal), so the claim as stated
demands the parsed dict be returned unchanged - but `item.get('price', 0)`
yields `None` (the key is present) and `None * None` raises a `TypeError`
that is not caught by the `except json.JSONDecodeError` handler, so
`extract_receipt_info` returns nothing at all (`none`). -/
theorem extract_autofills_subtotal_cex :
    pyTruthy (pyGet badItemsDict "items") = true ∧
    pyTruthy (pyGet badItemsDict "subtotal") = false ∧
    autofill_subtotal (.obj badItemsDict) = none ∧
    autofill_subtotal (.obj badItemsDict) ≠ some (.obj badItemsDict) :=
  ⟨rfl, rfl, rfl, by
    intro h
    rw [show autofill_subtotal (Json.obj badItemsDict) = none from rfl] at h
    exact Option.noConfusion h⟩

/-- Claim C10 (corrected): on a successfully parsed dict with a non-empty
items list, no truthy subtotal, and a defined and positive item sum
(price times quantity, with price defaulting to 0 and quantity to 1), the
returned dict's `subtotal` is that sum rounded to two decimals while every
other field is unchanged; when the sum is defined but not positive, or the
guard fails, the parsed dict is returned untouched; but when the guard
holds and the per-item arithmetic is undefined (for example a `null` price
or quantity), the resulting `TypeError` escapes `extract_receipt_info` and
nothing is returned. -/
theorem extract_autofills_subtotal (d : List (String × Json)) :
    (∀ items s, pyGet d "items" = .arr items →
       pyTruthy (pyGet d "items") = true →
       pyTruthy (pyGet d "subtotal") = false →
       sumItems items = some s →
       ((0 < s →
           autofill_subtotal (.obj d) =
             some (.obj (setKey d "subtotal" (.num (pyRound2 s)))) ∧
           pyGet (setKey d "subtotal" (.num (pyRound2 s))) "subtotal" =
             .num (pyRound2 s) ∧
           (∀ k, k ≠ "subtotal" →
              pyGet (setKey d "subtotal" (.num (pyRound2 s))) k =
                pyGet d k)) ∧
        (¬ 0 < s → autofill_subtotal (.obj d) = some (.obj d)))) ∧
    (¬ (pyTruthy (pyGet d "items") = true ∧
        pyTruthy (pyGet d "subtotal") = false) →
      autofill_subtotal (.obj d) = some (.obj d)) ∧
    (∀ items, pyGet d "items" = .arr items →
       pyTruthy (pyGet d "items") = true →
       pyTruthy (pyGet d "subtotal") = false →
       sumItems items = none →
       autofill_subtotal (.obj d) = none) := by
  have hstep : autofill_subtotal (Json.obj d) =
      (if (pyTruthy (pyGet d "items") &&
           !pyTruthy (pyGet d "subtotal")) = true then
        (match pyGet d "items" with
         | Json.arr items =>
           (match sumItems items with
            | some s₀ =>
              if 0 < s₀ then
                some (Json.obj (setKey d "subtotal"
                  (Json.num (pyRound2 s₀))))
              else
                some (Json.obj d)
            | none => none)
         | _ => none)
      else some (Json.obj d)) := rfl
  constructor
  · intro items s hitems htruthy hsub hsum
    have hguard :
        (pyTruthy (pyGet d "items") && !pyTruthy (pyGet d "subtotal")) =
          true := by
      rw [htruthy, hsub]
      rfl
    have hbody : autofill_subtotal (Json.obj d) =
        (match sumItems items with
         | some s₀ =>
           if 0 < s₀ then
             some (Json.obj (setKey d "subtotal" (Json.num (pyRound2 s₀))))
           else
             some (Json.obj d)
         | none => none) := by
      rw [hstep, if_pos hguard, hitems]
    constructor
    · intro hpos
      refine ⟨?_, pyGet_setKey_same _ _ _, ?_⟩
      · rw [hbody, hsum]
        show (if 0 < s then
            some (Json.obj (setKey d "subtotal" (Json.num (pyRound2 s))))
          else some (Json.obj d)) = _
        rw [if_pos hpos]
      · intro k hk
        exact pyGet_setKey_other _ k _ hk d
    · intro hneg
      rw [hbody, hsum]
      show (if 0 < s then
          some (Json.obj (setKey d "subtotal" (Json.num (pyRound2 s))))
        else some (Json.obj d)) = some (Json.obj d)
      rw [if_neg hneg]
  constructor
  · intro hng
    have hguard :
        (pyTruthy (pyGet d "items") && !pyTruthy (pyGet d "subtotal")) =
          false := by
      cases hti : pyTruthy (pyGet d "items") <;>
        cases hts : pyTruthy (pyGet d "subtotal")
      · rfl
      · rfl
      · exact absurd ⟨hti, hts⟩ hng
      · rfl
    rw [hstep, if_neg (by simp [hguard])]
  · intro items hitems htruthy hsub hsumnone
    have hguard :
        (pyTruthy (pyGet d "items") && !pyTruthy (pyGet d "subtotal")) =
          true := by
      rw [htruthy, hsub]
      rfl
    have hbody : autofill_subtotal (Json.obj d) =
        (match sumItems items with
         | some s₀ =>
           if 0 < s₀ then
             some (Json.obj (setKey d "subtotal" (Json.num (pyRound2 s₀))))
           else
             some (Json.obj d)
         | none => none) := by
      rw [hstep, if_pos hguard, hitems]
    rw [hbody, hsumnone]

/-- Witness for `extract_autofills_subtotal`: a one-item receipt with
price 2.5 and quantity 2 gets subtotal 5. -/
theorem extract_autofills_subtotal_witness :
    autofill_subtotal (.obj sampleDict) =
      some (.obj (setKey sampleDict "subtotal"
        (.num (pyRound2 (5 : ℚ))))) ∧
    pyGet (setKey sampleDict "subtotal" (.num (pyRound2 (5 : ℚ))))
      "subtotal" = .num (pyRound2 (5 : ℚ)) ∧
    (∀ k, k ≠ "subtotal" →
       pyGet (setKey sampleDict "subtotal" (.num (pyRound2 (5 : ℚ)))) k =
         pyGet sampleDict k) :=
  ((extract_autofills_subtotal sampleDict).1 sampleItems 5 rfl rfl rfl
    (by simp [sumItems, sampleItems, itemTerm, toNum, pyGetOpt, List.find?,
      List.mapM, List.mapM.loop])).1 (by norm_num)

end DocExtractor
